import Mathlib

/-!
Verification of the thumbnail / formatting core of the videosystem_concepts
repository (source files better_gui_concept.py and gui_concept.py).

The embedding is shallow: pure Python functions become Lean functions on
Nat / Int / String; the module level thumbnail cache becomes an explicit
state argument threaded through the cached thumbnail factory; calls into
the imaging library are modelled at the level the repository observes them
(image mode, width and height; constructors that raise on negative sizes
return Except values).  Float arithmetic from CPython (true division of
ints, float products, the fixed point format with one decimal) is modelled
exactly with integer arithmetic: a binary64 value is a pair of mantissa and
exponent, produced by correct rounding, half to even.
-/

namespace VideoSystem

/-- Round half to even of the rational a / b (b positive): the rounding mode
used when a real value is taken to the nearest binary64 float and when
CPython formats a float with a fixed number of decimals. -/
def rhe (a b : Nat) : Nat :=
  let q := a / b
  let r := a % b
  if 2 * r < b then q else if b < 2 * r then q + 1 else if q % 2 = 0 then q else q + 1

/-- Fuel driven floor base two logarithm.  Structurally recursive on the
fuel so that kernel evaluation on literals is cheap. -/
def log2fuel : Nat → Nat → Nat
  | 0, _ => 0
  | fuel + 1, n => if 2 ≤ n then log2fuel fuel (n / 2) + 1 else 0

/-- Floor base two logarithm. -/
def nlog2 (n : Nat) : Nat := log2fuel n n

/-- Ceiling base two logarithm. -/
def nclog2 (q : Nat) : Nat := if q ≤ 1 then 0 else nlog2 (q - 1) + 1

/-- The binary64 double nearest to the nonnegative rational a / b, as a pair
(mantissa, exponent) of value mantissa * 2 ^ exponent, with the mantissa in
[2 ^ 52, 2 ^ 53) for a positive value and (0, 0) for zero.  This models the
result of CPython true division of nonnegative ints and of float products of
exactly represented factors, both correctly rounded, half to even. -/
def toDouble (a b : Nat) : Nat × Int :=
  if a = 0 then (0, 0) else
  let t : Int := if b ≤ a then (nlog2 (a / b) : Int) else -((nclog2 ((b + a - 1) / a) : Int))
  let e : Int := t - 52
  let m := if 0 ≤ e then rhe a (b * 2 ^ e.toNat) else rhe (a * 2 ^ (-e).toNat) b
  if m = 2 ^ 53 then (2 ^ 52, e + 1) else (m, e)

/-- Floor of a nonnegative double, which is what the CPython int conversion
(truncation toward zero) computes on nonnegative values. -/
def floorD (d : Nat × Int) : Nat :=
  if 0 ≤ d.2 then d.1 * 2 ^ d.2.toNat else d.1 / 2 ^ (-d.2).toNat

/-- The CPython format expression with one fixed decimal applied to the
double nearest to a / b: ten times the exact value of that double is rounded
half to even to an integer n, printed as the digits of n / 10, a dot, and
the digit n % 10. -/
def fixed1 (a b : Nat) : String :=
  let d := toDouble a b
  let n := if 0 ≤ d.2 then d.1 * 10 * 2 ^ d.2.toNat else rhe (d.1 * 10) (2 ^ (-d.2).toNat)
  toString (n / 10) ++ "." ++ toString (n % 10)

/-- fmt_views from better_gui_concept.py line 121 (the identical function
also appears in gui_concept.py lines 144 to 149). -/
def fmt_views (v : Nat) : String :=
  if 1000000 ≤ v then fixed1 v 1000000 ++ "M views"
  else if 1000 ≤ v then fixed1 v 1000 ++ "K views"
  else toString v ++ " views"

/-- fmt_age from better_gui_concept.py lines 124 to 132 (the identical
function also appears in gui_concept.py lines 152 to 163). -/
def fmt_age (days : Nat) : String :=
  if days = 0 then ("today")
  else if days = 1 then ("1 day ago")
  else if days < 30 then toString days ++ " days ago"
  else
    let m := days / 30
    if m < 12 then toString m ++ " months ago" else toString (m / 12) ++ " years ago"

/-- C5: fmt_views formats count / 1e6 with one decimal and suffix M views
when count is at least one million, else count / 1e3 with one decimal and
suffix K views when count is at least one thousand, else the plain count
with suffix views; and it meets the three anchor examples of the spec. -/
theorem c5_fmt_views_spec :
    (∀ v : Nat, 1000000 ≤ v → fmt_views v = fixed1 v 1000000 ++ "M views")
    ∧ (∀ v : Nat, 1000 ≤ v → v < 1000000 → fmt_views v = fixed1 v 1000 ++ "K views")
    ∧ (∀ v : Nat, v < 1000 → fmt_views v = toString v ++ " views")
    ∧ fmt_views 999 = "999 views"
    ∧ fmt_views 1500 = "1.5K views"
    ∧ fmt_views 2500000 = "2.5M views" := by
  refine ⟨?_, ?_, ?_, ?_, ?_, ?_⟩
  · intro v h
    rw [fmt_views, if_pos h]
  · intro v h1 h2
    rw [fmt_views, if_neg (by omega), if_pos h1]
  · intro v h
    rw [fmt_views, if_neg (by omega), if_neg (by omega)]
  · decide
  · decide
  · decide

/-- Witness for c5_fmt_views_spec instantiating each conditional conjunct. -/
theorem c5_witness :
    fmt_views 1000000 = fixed1 1000000 1000000 ++ "M views"
    ∧ fmt_views 1500 = fixed1 1500 1000 ++ "K views"
    ∧ fmt_views 999 = toString 999 ++ " views" :=
  ⟨c5_fmt_views_spec.1 1000000 (by omega),
   c5_fmt_views_spec.2.1 1500 (by omega) (by omega),
   c5_fmt_views_spec.2.2.1 999 (by omega)⟩

/-- C6: fmt_age returns today for 0, 1 day ago for 1, the day count for 2
to 29, days / 30 months ago while that quotient is below 12, and quotient
of months by 12 years ago otherwise, with integer division throughout; and
it meets the four anchor examples of the spec. -/
theorem c6_fmt_age_spec :
    fmt_age 0 = "today"
    ∧ fmt_age 1 = "1 day ago"
    ∧ (∀ d : Nat, 2 ≤ d → d < 30 → fmt_age d = toString d ++ " days ago")
    ∧ (∀ d : Nat, 30 ≤ d → d / 30 < 12 → fmt_age d = toString (d / 30) ++ " months ago")
    ∧ (∀ d : Nat, 30 ≤ d → 12 ≤ d / 30 → fmt_age d = toString (d / 30 / 12) ++ " years ago")
    ∧ fmt_age 45 = "1 months ago"
    ∧ fmt_age 400 = "1 years ago" := by
  refine ⟨rfl, rfl, ?_, ?_, ?_, ?_, ?_⟩
  · intro d h1 h2
    rw [fmt_age, if_neg (by omega), if_neg (by omega), if_pos h2]
  · intro d h1 h2
    rw [fmt_age, if_neg (by omega), if_neg (by omega), if_neg (by omega)]
    simp only [if_pos h2]
  · intro d h1 h2
    rw [fmt_age, if_neg (by omega), if_neg (by omega), if_neg (by omega)]
    simp only [if_neg (by omega : ¬ d / 30 < 12)]
  · decide
  · decide

/-- Witness for c6_fmt_age_spec instantiating each conditional conjunct. -/
theorem c6_witness :
    fmt_age 7 = toString 7 ++ " days ago"
    ∧ fmt_age 45 = toString (45 / 30) ++ " months ago"
    ∧ fmt_age 400 = toString (400 / 30 / 12) ++ " years ago" :=
  ⟨c6_fmt_age_spec.2.2.1 7 (by omega) (by omega),
   c6_fmt_age_spec.2.2.2.1 45 (by omega) (by omega),
   c6_fmt_age_spec.2.2.2.2.1 400 (by omega) (by omega)⟩

/-- Helper for pyWords: scan the character list, collecting the current word
in reverse in buf, emitting a word at each whitespace boundary.  This is the
behaviour of the Python str.split() with no arguments: split on runs of
whitespace, drop empty pieces. -/
def wordsAux (buf : List Char) : List Char → List (List Char)
  | [] => if buf.isEmpty then [] else [buf.reverse]
  | c :: cs =>
    if c.isWhitespace then
      if buf.isEmpty then wordsAux [] cs else buf.reverse :: wordsAux [] cs
    else wordsAux (c :: buf) cs

/-- t.split() from the wrap helper in both source files. -/
def pyWords (t : List Char) : List (List Char) := wordsAux [] t

/-- Python " ".join respectively "\n".join on a list of character lists. -/
def joinSep (sep : Char) : List (List Char) → List Char
  | [] => []
  | [w] => w
  | w :: ws => w ++ sep :: joinSep sep ws

theorem joinSep_nil (sep : Char) : joinSep sep [] = [] := rfl

theorem joinSep_single (sep : Char) (w : List Char) : joinSep sep [w] = w := rfl

theorem joinSep_cons_cons (sep : Char) (w w2 : List Char) (ws : List (List Char)) :
    joinSep sep (w :: w2 :: ws) = w ++ sep :: joinSep sep (w2 :: ws) := rfl

/-- sum(len(x) for x in buf). -/
def sumLens (buf : List (List Char)) : Nat := (buf.map List.length).sum

/-- The loop body of the wrap helper defined inside make_thumb in both
source files (better_gui_concept.py lines 95 to 103, gui_concept.py lines
113 to 125): greedily accumulate words in buf; when the next word w makes
sum(len(x) for x in buf) + len(buf) - 1 + len(w) exceed max_chars, flush
buf as a finished line (for an empty buf the Python expression len(buf) - 1
is minus one, hence the Int arithmetic) and restart from [w]; at the end
flush a nonempty buf. -/
def wrapLoop (mc : Nat) (buf : List (List Char)) : List (List Char) → List (List Char)
  | [] => if buf.isEmpty then [] else [joinSep ' ' buf]
  | w :: ws =>
    if (sumLens buf : Int) + buf.length - 1 + w.length > (mc : Int) then
      joinSep ' ' buf :: wrapLoop mc [w] ws
    else
      wrapLoop mc (buf ++ [w]) ws

/-- wrap(t, max_chars) from both source files: run the greedy loop over the
whitespace split of t, keep the first two lines, join with a newline. -/
def pyWrap (t : String) (mc : Nat) : String :=
  ⟨joinSep '\n' ((wrapLoop mc [] (pyWords t.data)).take 2)⟩

/-- Every character of every word produced by wordsAux is non whitespace,
provided the pending buffer also holds only non whitespace characters. -/
theorem wordsAux_no_ws (cs : List Char) :
    ∀ buf : List Char, (∀ c ∈ buf, ¬ c.isWhitespace) →
      ∀ w ∈ wordsAux buf cs, ∀ c ∈ w, ¬ c.isWhitespace := by
  induction cs with
  | nil =>
    intro buf hbuf w hw c hc
    rw [wordsAux] at hw
    by_cases hb : buf.isEmpty
    · simp [hb] at hw
    · simp [hb] at hw
      subst hw
      exact hbuf c (List.mem_reverse.mp hc)
  | cons a cs ih =>
    intro buf hbuf w hw c hc
    rw [wordsAux] at hw
    by_cases ha : a.isWhitespace
    · rw [if_pos ha] at hw
      by_cases hb : buf.isEmpty
      · rw [if_pos hb] at hw
        exact ih [] (by simp) w hw c hc
      · rw [if_neg hb] at hw
        rcases List.mem_cons.mp hw with h | h
        · subst h
          exact hbuf c (List.mem_reverse.mp hc)
        · exact ih [] (by simp) w h c hc
    · rw [if_neg ha] at hw
      refine ih (a :: buf) ?_ w hw c hc
      intro x hx
      rcases List.mem_cons.mp hx with h | h
      · subst h; exact ha
      · exact hbuf x h

/-- Every character of pyWords is non whitespace. -/
theorem pyWords_no_ws (t : List Char) :
    ∀ w ∈ pyWords t, ∀ c ∈ w, ¬ c.isWhitespace :=
  wordsAux_no_ws t [] (by simp)

/-- Membership in a joinSep join: the character is the separator or comes
from one of the joined pieces. -/
theorem mem_joinSep {sep : Char} {c : Char} :
    ∀ {l : List (List Char)}, c ∈ joinSep sep l → c = sep ∨ ∃ w ∈ l, c ∈ w := by
  intro l
  induction l with
  | nil => intro h; simp [joinSep] at h
  | cons w ws ih =>
    intro h
    cases ws with
    | nil =>
      rw [joinSep] at h
      exact Or.inr ⟨w, by simp, h⟩
    | cons w2 ws2 =>
      rw [joinSep_cons_cons] at h
      rcases List.mem_append.mp h with h1 | h1
      · exact Or.inr ⟨w, by simp, h1⟩
      · rcases List.mem_cons.mp h1 with h2 | h2
        · exact Or.inl h2
        · rcases ih h2 with h3 | ⟨u, hu, hcu⟩
          · exact Or.inl h3
          · exact Or.inr ⟨u, by simp [hu], hcu⟩

/-- No newline occurs in any line produced by wrapLoop, as long as every
word fed to it (pending buffer included) is newline free. -/
theorem wrapLoop_no_newline (mc : Nat) (ws : List (List Char)) :
    ∀ buf : List (List Char),
      (∀ w ∈ buf, ('\n' : Char) ∉ w) → (∀ w ∈ ws, ('\n' : Char) ∉ w) →
      ∀ line ∈ wrapLoop mc buf ws, ('\n' : Char) ∉ line := by
  induction ws with
  | nil =>
    intro buf hbuf _ line hline hc
    rw [wrapLoop] at hline
    by_cases hb : buf.isEmpty
    · simp [hb] at hline
    · simp [hb] at hline
      subst hline
      rcases mem_joinSep hc with h | ⟨u, hu, hcu⟩
      · exact absurd h (by decide)
      · exact hbuf u hu hcu
  | cons w ws ih =>
    intro buf hbuf hws line hline hc
    rw [wrapLoop] at hline
    by_cases hcond : (sumLens buf : Int) + buf.length - 1 + w.length > (mc : Int)
    · rw [if_pos hcond] at hline
      rcases List.mem_cons.mp hline with h | h
      · subst h
        rcases mem_joinSep hc with h1 | ⟨u, hu, hcu⟩
        · exact absurd h1 (by decide)
        · exact hbuf u hu hcu
      · refine ih [w] ?_ (fun u hu => hws u (List.mem_cons_of_mem _ hu)) line h hc
        intro u hu
        rw [List.mem_singleton.mp hu]
        exact hws w (List.mem_cons_self _ _)
    · rw [if_neg hcond] at hline
      refine ih (buf ++ [w]) ?_ (fun u hu => hws u (List.mem_cons_of_mem _ hu)) line hline hc
      intro u hu
      rcases List.mem_append.mp hu with h2 | h2
      · exact hbuf u h2
      · rw [List.mem_singleton.mp h2]
        exact hws w (List.mem_cons_self _ _)

/-- C3: for every input string and every character budget, the wrapped
output holds at most one newline character, hence at most two lines. -/
theorem c3_wrap_at_most_two_lines (t : String) (mc : Nat) :
    ((pyWrap t mc).data.count '\n') ≤ 1 := by
  have hnl : ∀ line ∈ wrapLoop mc [] (pyWords t.data), ('\n' : Char) ∉ line := by
    refine wrapLoop_no_newline mc (pyWords t.data) [] (by simp) ?_
    intro w hw hmem
    exact pyWords_no_ws t.data w hw '\n' hmem (by decide)
  show (joinSep '\n' ((wrapLoop mc [] (pyWords t.data)).take 2)).count '\n' ≤ 1
  rcases hL : wrapLoop mc [] (pyWords t.data) with _ | ⟨a, tail⟩
  · simp [joinSep]
  · rcases tail with _ | ⟨b, rest⟩
    · have ha : ('\n' : Char) ∉ a := hnl a (by rw [hL]; exact List.mem_cons_self _ _)
      simp [joinSep, List.count_eq_zero.mpr ha]
    · have ha : ('\n' : Char) ∉ a := hnl a (by rw [hL]; exact List.mem_cons_self _ _)
      have hb : ('\n' : Char) ∉ b := hnl b (by rw [hL]; simp)
      show (joinSep '\n' [a, b]).count '\n' ≤ 1
      rw [joinSep_cons_cons, joinSep_single]
      rw [List.count_append, List.count_cons]
      simp [List.count_eq_zero.mpr ha, List.count_eq_zero.mpr hb]

/-- Modelled from the spec wording of section 4.3: one greedy step over the
state (finished lines, current line words): append the next word to the
current line exactly when the sum of the current word lengths plus the
separator count (number of current words minus one) plus the next word
length stays within the budget, otherwise close the current line and start
a new one holding that word. -/
def specWrapStep (mc : Nat) (st : List (List Char) × List (List Char)) (w : List Char) :
    List (List Char) × List (List Char) :=
  if (sumLens st.2 : Int) + st.2.length - 1 + w.length ≤ (mc : Int) then
    (st.1, st.2 ++ [w])
  else
    (st.1 ++ [joinSep ' ' st.2], [w])

/-- Close the pending line of a wrap state, when nonempty. -/
def specWrapFinish (st : List (List Char) × List (List Char)) : List (List Char) :=
  if st.2.isEmpty then st.1 else st.1 ++ [joinSep ' ' st.2]

/-- Modelled from the spec wording of section 4.3: split the input on
whitespace, fold the greedy step over the words from an empty state, close
the pending line, keep only the first two lines, join with line breaks. -/
def specWrap (t : String) (mc : Nat) : String :=
  ⟨joinSep '\n' ((specWrapFinish ((pyWords t.data).foldl (specWrapStep mc) ([], []))).take 2)⟩

/-- Bridge between the recursive loop of the source and the fold of the
spec: finishing the fold from any state equals the already finished lines
followed by the loop run on the pending buffer. -/
theorem specWrap_fold_eq_wrapLoop (mc : Nat) (ws : List (List Char)) :
    ∀ buf lines : List (List Char),
      specWrapFinish (ws.foldl (specWrapStep mc) (lines, buf)) = lines ++ wrapLoop mc buf ws := by
  induction ws with
  | nil =>
    intro buf lines
    rw [wrapLoop, List.foldl_nil, specWrapFinish]
    by_cases hb : buf.isEmpty
    · simp [hb]
    · simp [hb]
  | cons w ws ih =>
    intro buf lines
    rw [wrapLoop, List.foldl_cons]
    by_cases hcond : (sumLens buf : Int) + buf.length - 1 + w.length > (mc : Int)
    · rw [if_pos hcond]
      have hstep : specWrapStep mc (lines, buf) w = (lines ++ [joinSep ' ' buf], [w]) := by
        rw [specWrapStep, if_neg (by simpa using Int.not_le.mpr hcond)]
      rw [hstep, ih [w] (lines ++ [joinSep ' ' buf]), List.append_assoc]
      rfl
    · rw [if_neg hcond]
      have hstep : specWrapStep mc (lines, buf) w = (lines, buf ++ [w]) := by
        rw [specWrapStep, if_pos (by simpa using Int.not_lt.mp hcond)]
      rw [hstep, ih (buf ++ [w]) lines]

/-- C4: the wrap helper of the source implements exactly the greedy
algorithm stated by the spec: same whitespace split, same greedy append
condition with the word lengths plus separators accounting, same line
closing on overflow, same truncation to the first two lines joined with
line breaks. -/
theorem c4_wrap_matches_spec (t : String) (mc : Nat) : pyWrap t mc = specWrap t mc := by
  rw [pyWrap, specWrap, specWrap_fold_eq_wrapLoop mc (pyWords t.data) [] []]
  rfl

/-- C10: the wrap helper never splits a word: when the first word of the
input is strictly longer than the budget plus one, the output starts with
an empty first line, a newline, and then that word intact as the whole
second line. -/
theorem c10_overlong_first_word (t : String) (mc : Nat) (w : List Char) (ws : List (List Char))
    (hsplit : pyWords t.data = w :: ws) (hlen : mc + 1 < w.length) :
    (pyWrap t mc).data = '\n' :: w := by
  have hflush : wrapLoop mc [] (w :: ws) = [] :: wrapLoop mc [w] ws := by
    rw [wrapLoop]
    rw [if_pos (by simp [sumLens]; omega)]
    rfl
  have hsecond : ∃ rest : List (List Char), wrapLoop mc [w] ws = w :: rest := by
    cases ws with
    | nil =>
      refine ⟨[], ?_⟩
      rw [wrapLoop]
      simp [joinSep_single]
    | cons w2 ws2 =>
      refine ⟨wrapLoop mc [w2] ws2, ?_⟩
      rw [wrapLoop]
      rw [if_pos (by simp [sumLens]; omega)]
      rw [joinSep_single]
  rcases hsecond with ⟨rest, hrest⟩
  show joinSep '\n' ((wrapLoop mc [] (pyWords t.data)).take 2) = '\n' :: w
  rw [hsplit, hflush, hrest]
  rfl

/-- Witness for c10_overlong_first_word at the input abcdef with budget
three: the single word has length six, above four, and the wrapped output
is a newline followed by the word. -/
theorem c10_witness : (pyWrap ("abcdef") 3).data = '\n' :: ("abcdef").data :=
  c10_overlong_first_word ("abcdef") 3 (("abcdef").data) [] (by decide) (by decide)

/-- The Video dataclass shared by both source files. -/
structure Video where
  id : String
  title : String
  channel : String
  views : Nat
  age_days : Nat
  duration : String
  color : Nat × Nat × Nat
deriving DecidableEq

/-- The fixed palette of both source files. -/
def pal : List (Nat × Nat × Nat) :=
  [(220, 20, 60), (65, 105, 225), (255, 140, 0), (34, 139, 34),
   (123, 104, 238), (255, 99, 71), (0, 191, 255)]

/-- The fixed title pool of both source files. -/
def titlePool : List String :=
  ["How to Build a Python GUI Like YouTube",
   "10 CustomTkinter Tips You Need",
   "Lofi Beats to Code/Study To - 3 Hours",
   "The Secret History of GUIs",
   "I Recreated YouTube in 200 Lines (Kinda)",
   "Designing Dark Mode the Right Way",
   "Keyboard Shortcuts that Change Everything",
   "Productivity Myths Busted!",
   "Learn PIL in 15 Minutes",
   "My Desk Setup 2025 - Minimal and Clean"]

/-- The fixed channel pool of both source files. -/
def channelPool : List String :=
  ["CodeGarden", "UI Nerd", "Midnight Dev", "PixelSmith", "The Pythonist", "DesignSense"]

/-- One draw of random.choice over a string pool.  The seeded Mersenne
Twister behind random.Random(42) is abstracted as a stream f of draw values
indexed by the position of the call; a choice call maps its draw value into
the pool. -/
def pyChoiceStr (v : Nat) (xs : List String) : String := xs.getD (v % xs.length) ("")

/-- One draw of random.choice over the color palette. -/
def pyChoiceColor (v : Nat) (xs : List (Nat × Nat × Nat)) : Nat × Nat × Nat :=
  xs.getD (v % xs.length) (0, 0, 0)

/-- One draw of random.randint(a, b), inclusive on both ends. -/
def pyRandint (v a b : Nat) : Nat := a + v % (b + 1 - a)

/-- The Python format {n:02d} for n below one hundred. -/
def pad2 (n : Nat) : String := if n < 10 then "0" ++ toString n else toString n

/-- One iteration of the catalog comprehension of better_gui_concept.py
lines 43 to 54 (the equivalent append loop is gui_concept.py lines 73 to
84): build the record for index i, drawing from the stream f starting at
position st, in the exact source order title, channel, views, age, duration
hour then minute then second, color.  Returns the record and the next free
stream position. -/
def genVideoAt (f : Nat → Nat) (i st : Nat) : Video × Nat :=
  let title := pyChoiceStr (f st) titlePool
  let channel := pyChoiceStr (f (st + 1)) channelPool
  let views := pyRandint (f (st + 2)) 1000 2500000
  let age := pyRandint (f (st + 3)) 0 900
  let hh := pyRandint (f (st + 4)) 1 2
  let mm := pyRandint (f (st + 5)) 0 59
  let ss := pyRandint (f (st + 6)) 0 59
  let color := pyChoiceColor (f (st + 7)) pal
  (⟨"vid_" ++ toString i, title, channel, views, age,
    toString hh ++ ":" ++ pad2 mm ++ ":" ++ pad2 ss, color⟩, st + 8)

/-- The catalog loop: count remaining records, current index, current
stream position. -/
def genCatalogAux (f : Nat → Nat) : Nat → Nat → Nat → List Video
  | 0, _, _ => []
  | n + 1, i, st =>
    (genVideoAt f i st).1 :: genCatalogAux f n (i + 1) (genVideoAt f i st).2

/-- MOCK_VIDEOS generation generalized over the seed stream and the count:
MOCK_VIDEOS of the sources is genCatalog s42 24 where s42 is the draw
stream of the Mersenne Twister seeded with 42. -/
def genCatalog (f : Nat → Nat) (count : Nat) : List Video := genCatalogAux f count 0 0

theorem genVideoAt_snd (f : Nat → Nat) (i st : Nat) : (genVideoAt f i st).2 = st + 8 := rfl

/-- Pointwise equal streams generate identical records at every index. -/
theorem genVideoAt_ext (f g : Nat → Nat) (h : ∀ n, f n = g n) (i st : Nat) :
    genVideoAt f i st = genVideoAt g i st := by
  simp only [genVideoAt, h]

theorem genCatalogAux_ext (f g : Nat → Nat) (h : ∀ n, f n = g n) :
    ∀ n i st, genCatalogAux f n i st = genCatalogAux g n i st := by
  intro n
  induction n with
  | zero => intro i st; rfl
  | succ n ih =>
    intro i st
    rw [genCatalogAux, genCatalogAux, genVideoAt_ext f g h, ih]

/-- Closed form of the catalog loop: the j-th record of a run starting at
index i and stream position st is the record generated at index i + j and
stream position st + 8 * j. -/
theorem genCatalogAux_get (f : Nat → Nat) :
    ∀ n i st j, j < n →
      (genCatalogAux f n i st)[j]? = some (genVideoAt f (i + j) (st + 8 * j)).1 := by
  intro n
  induction n with
  | zero => intro i st j hj; omega
  | succ n ih =>
    intro i st j hj
    rw [genCatalogAux]
    cases j with
    | zero => simp
    | succ j =>
      rw [List.getElem?_cons_succ, genVideoAt_snd, ih (i + 1) (st + 8) j (by omega)]
      have h1 : i + 1 + j = i + (j + 1) := by omega
      have h2 : st + 8 + 8 * j = st + 8 * (j + 1) := by omega
      rw [h1, h2]

/-- C7: catalog generation is deterministic in the seed stream, and each
record draws its fields in the fixed source order from eight consecutive
stream positions: record i of genCatalog uses positions 8 i to 8 i + 7 for
title, channel, views, age, duration hour, minute, second, and color, in
that order.  Two runs over the same seed stream therefore yield identical
ordered record sequences. -/
theorem c7_catalog_deterministic :
    (∀ (f g : Nat → Nat) (count : Nat), (∀ n, f n = g n) →
        genCatalog f count = genCatalog g count)
    ∧ (∀ (f : Nat → Nat) (count i : Nat), i < count →
        (genCatalog f count)[i]? =
          some ⟨"vid_" ++ toString i,
                pyChoiceStr (f (8 * i)) titlePool,
                pyChoiceStr (f (8 * i + 1)) channelPool,
                pyRandint (f (8 * i + 2)) 1000 2500000,
                pyRandint (f (8 * i + 3)) 0 900,
                toString (pyRandint (f (8 * i + 4)) 1 2) ++ ":" ++
                  pad2 (pyRandint (f (8 * i + 5)) 0 59) ++ ":" ++
                  pad2 (pyRandint (f (8 * i + 6)) 0 59),
                pyChoiceColor (f (8 * i + 7)) pal⟩) := by
  constructor
  · intro f g count h
    exact genCatalogAux_ext f g h count 0 0
  · intro f count i hi
    rw [genCatalog, genCatalogAux_get f count 0 0 i hi]
    simp [genVideoAt]

/-- Witness for c7_catalog_deterministic on the identity stream with two
records, reading record one. -/
theorem c7_witness :
    genCatalog (fun n => n) 2 = genCatalog (fun n => n) 2
    ∧ (genCatalog (fun n => n) 2)[1]? =
        some ⟨"vid_" ++ toString 1,
              pyChoiceStr 8 titlePool,
              pyChoiceStr 9 channelPool,
              pyRandint 10 1000 2500000,
              pyRandint 11 0 900,
              toString (pyRandint 12 1 2) ++ ":" ++
                pad2 (pyRandint 13 0 59) ++ ":" ++
                pad2 (pyRandint 14 0 59),
              pyChoiceColor 15 pal⟩ :=
  ⟨c7_catalog_deterministic.1 (fun n => n) (fun n => n) 2 (fun _ => rfl),
   c7_catalog_deterministic.2 (fun n => n) 2 1 (by omega)⟩

/-- A pixel mode of the imaging library, as far as the repository observes
it: RGB has three channels, RGBA four, L one. -/
inductive PMode
  | RGB
  | RGBA
  | L
deriving DecidableEq

/-- Shape level model of a PIL image: the claims speak about mode, width
and height, so pixel contents are abstracted away; operations that only
touch pixels (polygon, text, paste, blur) leave this state unchanged. -/
structure PImage where
  mode : PMode
  width : Nat
  height : Nat
deriving DecidableEq

/-- The channel count of an image, determined by its mode. -/
def PImage.channels (im : PImage) : Nat :=
  match im.mode with
  | .RGBA => 4
  | .RGB => 3
  | .L => 1

/-- The one error the modelled library operations raise: ValueError. -/
inductive PErr
  | valueError
deriving DecidableEq

/-- Image.new: the size check of the library accepts zero but raises
ValueError on a negative width or height. -/
def imageNew (mode : PMode) (w h : Int) : Except PErr PImage :=
  if 0 ≤ w ∧ 0 ≤ h then Except.ok ⟨mode, w.toNat, h.toNat⟩ else Except.error PErr.valueError

/-- Image.convert: changes the mode, keeps the size. -/
def PImage.convert (im : PImage) (m : PMode) : PImage := ⟨m, im.width, im.height⟩

/-- Image.alpha_composite (the static two image form): requires two RGBA
images of equal size, produces an RGBA image of that size. -/
def alphaComposite (im1 im2 : PImage) : Except PErr PImage :=
  if im1.mode = PMode.RGBA ∧ im2.mode = PMode.RGBA
      ∧ im1.width = im2.width ∧ im1.height = im2.height
  then Except.ok im1 else Except.error PErr.valueError

/-- The in place form im.alpha_composite(src, dest): requires RGBA on both
sides and keeps the shape of the destination. -/
def alphaCompositeInPlace (dst src : PImage) : Except PErr PImage :=
  if dst.mode = PMode.RGBA ∧ src.mode = PMode.RGBA
  then Except.ok dst else Except.error PErr.valueError

/-- im.putalpha(mask): the image ends RGBA with unchanged size. -/
def PImage.putalpha (im _mask : PImage) : PImage := ⟨PMode.RGBA, im.width, im.height⟩

/-- ImageDraw operations (polygon, rounded_rectangle, multiline_text) touch
pixels only. -/
def drawOnImage (im : PImage) : PImage := im

/-- ImageFilter.GaussianBlur keeps mode and size. -/
def PImage.gaussianBlur (im : PImage) : PImage := im

/-- im.paste writes pixels into the destination and keeps its shape. -/
def PImage.pasteInto (dst _src _mask : PImage) : PImage := dst

/-- Image.resize: the resampling core of the library raises ValueError
unless both target dimensions are at least one. -/
def PImage.resize (im : PImage) (w h : Int) : Except PErr PImage :=
  if 1 ≤ w ∧ 1 ≤ h then Except.ok ⟨im.mode, w.toNat, h.toNat⟩
  else Except.error PErr.valueError

/-- _rounded_shadow_rgba of better_gui_concept.py lines 58 to 66: an RGBA
canvas grown by the shadow margin on every side, a rounded rectangle mask,
a dark fill pasted through the mask, then a Gaussian blur. -/
def roundedShadowRgba (w h : Int) (shadow : Nat) : Except PErr PImage := do
  let canvas ← imageNew PMode.RGBA (w + shadow * 2) (h + shadow * 2)
  let mask ← imageNew PMode.L w h
  let mask := drawOnImage mask
  let shadowImg ← imageNew PMode.RGBA w h
  let canvas := canvas.pasteInto shadowImg mask
  return canvas.gaussianBlur

/-- _apply_rounded of better_gui_concept.py lines 68 to 73: build an L mode
mask of the image size, draw the rounded rectangle, convert the image to
RGBA and install the mask as its alpha channel. -/
def applyRounded (img : PImage) : PImage :=
  let mask : PImage := ⟨PMode.L, img.width, img.height⟩
  let mask := drawOnImage mask
  (img.convert PMode.RGBA).putalpha mask

/-- The cache miss body of make_thumb in better_gui_concept.py lines 79 to
119: render at double resolution, composite the translucent play glyph,
draw the wrapped title with its offset shadow copy, round the corners, lay
the result over the blurred shadow halo, downscale to the requested size.
Font loading (lines 91 to 94) affects glyph pixels only and is omitted at
this shape level. -/
def renderThumbBetter (text : String) (size : Int × Int) : Except PErr PImage := do
  let bigW := size.1 * 2
  let bigH := size.2 * 2
  let img ← imageNew PMode.RGB bigW bigH
  let overlay ← imageNew PMode.RGBA bigW bigH
  let overlay := drawOnImage overlay
  let img ← alphaComposite (img.convert PMode.RGBA) overlay
  let img := img.convert PMode.RGB
  let _wrapped := pyWrap text 42
  let img := drawOnImage (drawOnImage img)
  let img := applyRounded img
  let shadow ← roundedShadowRgba bigW bigH 16
  let canvas ← imageNew PMode.RGBA shadow.width shadow.height
  let canvas ← alphaCompositeInPlace canvas shadow
  let canvas ← alphaCompositeInPlace canvas img
  canvas.resize size.1 size.2

/-- The cache miss body of make_thumb in gui_concept.py lines 95 to 141:
render directly at the requested size, composite the translucent play
glyph, convert back to RGB, draw the wrapped title with its offset shadow
copy, and return the RGB image unchanged in size. -/
def renderThumbGui (text : String) (size : Int × Int) : Except PErr PImage := do
  let img ← imageNew PMode.RGB size.1 size.2
  let overlay ← imageNew PMode.RGBA size.1 size.2
  let overlay := drawOnImage overlay
  let img ← alphaComposite (img.convert PMode.RGBA) overlay
  let img := img.convert PMode.RGB
  let _wrapped := pyWrap text 24
  let img := drawOnImage (drawOnImage img)
  return img

/-- The cache key (text, color, size) of both source files. -/
def ThumbKey : Type := String × (Nat × Nat × Nat) × (Int × Int)

instance : DecidableEq ThumbKey := by
  unfold ThumbKey
  infer_instance

/-- The module level dict ASSET_CACHE, as an optional valued map on keys. -/
def Cache : Type := ThumbKey → Option PImage

/-- The empty starting cache. -/
def emptyCache : Cache := fun _ => none

/-- The get or create shape of make_thumb in both files: return the cached
bitmap on a hit, otherwise render, store under the key, and return;
an exception escaping the render leaves the cache unchanged. -/
def getOrCreate (render : String → Int × Int → Except PErr PImage)
    (cache : Cache) (text : String) (color : Nat × Nat × Nat) (size : Int × Int) :
    Except PErr PImage × Cache :=
  let key : ThumbKey := (text, color, size)
  match cache key with
  | some img => (Except.ok img, cache)
  | none =>
    match render text size with
    | Except.ok img => (Except.ok img, fun k => if k = key then some img else cache k)
    | Except.error e => (Except.error e, cache)

/-- make_thumb of better_gui_concept.py lines 75 to 119. -/
def makeThumbBetter (cache : Cache) (text : String) (color : Nat × Nat × Nat)
    (size : Int × Int) : Except PErr PImage × Cache :=
  getOrCreate renderThumbBetter cache text color size

/-- make_thumb of gui_concept.py lines 91 to 141. -/
def makeThumbGui (cache : Cache) (text : String) (color : Nat × Nat × Nat)
    (size : Int × Int) : Except PErr PImage × Cache :=
  getOrCreate renderThumbGui cache text color size

theorem ebind_ok {α β : Type} (a : α) (f : α → Except PErr β) :
    (Except.ok a : Except PErr α) >>= f = f a := rfl

theorem ebind_err {α β : Type} (e : PErr) (f : α → Except PErr β) :
    (Except.error e : Except PErr α) >>= f = Except.error e := rfl

theorem epure {α : Type} (a : α) : (pure a : Except PErr α) = Except.ok a := rfl

theorem imageNew_ok (m : PMode) (x y : Int) (hx : 0 ≤ x) (hy : 0 ≤ y) :
    imageNew m x y = Except.ok ⟨m, x.toNat, y.toNat⟩ := by
  rw [imageNew, if_pos ⟨hx, hy⟩]

theorem imageNew_err (m : PMode) (x y : Int) (hxy : x < 0 ∨ y < 0) :
    imageNew m x y = Except.error PErr.valueError := by
  rw [imageNew, if_neg (by omega)]

theorem alphaComposite_ok (a b : Nat) :
    alphaComposite ⟨PMode.RGBA, a, b⟩ ⟨PMode.RGBA, a, b⟩ = Except.ok ⟨PMode.RGBA, a, b⟩ := by
  rw [alphaComposite, if_pos ⟨rfl, rfl, rfl, rfl⟩]

theorem alphaCompositeInPlace_ok (a b c d : Nat) :
    alphaCompositeInPlace ⟨PMode.RGBA, a, b⟩ ⟨PMode.RGBA, c, d⟩ =
      Except.ok ⟨PMode.RGBA, a, b⟩ := by
  rw [alphaCompositeInPlace, if_pos ⟨rfl, rfl⟩]

/-- The shadow helper on nonnegative dimensions: an RGBA canvas grown by
twice the shadow margin. -/
theorem roundedShadowRgba_ok (x y : Int) (s : Nat) (hx : 0 ≤ x) (hy : 0 ≤ y) :
    roundedShadowRgba x y s =
      Except.ok ⟨PMode.RGBA, (x + s * 2).toNat, (y + s * 2).toNat⟩ := by
  rw [roundedShadowRgba]
  rw [imageNew_ok _ _ _ (by omega) (by omega)]
  rw [ebind_ok]
  rw [imageNew_ok _ _ _ hx hy, ebind_ok]
  rw [imageNew_ok _ _ _ hx hy, ebind_ok]
  rfl

/-- Characterization of the better render: it succeeds exactly on strictly
positive dimensions (a zero dimension survives image creation but fails in
the final resize) and then delivers an RGBA image of exactly the requested
size. -/
theorem renderThumbBetter_eq (text : String) (w h : Int) :
    renderThumbBetter text (w, h) =
      if 0 < w ∧ 0 < h then Except.ok ⟨PMode.RGBA, w.toNat, h.toNat⟩
      else Except.error PErr.valueError := by
  by_cases hw : 0 ≤ w ∧ 0 ≤ h
  · obtain ⟨hw1, hh1⟩ := hw
    have e1 := imageNew_ok PMode.RGB (w * 2) (h * 2) (by omega) (by omega)
    have e2 := imageNew_ok PMode.RGBA (w * 2) (h * 2) (by omega) (by omega)
    have e3 := alphaComposite_ok (w * 2).toNat (h * 2).toNat
    have e4 := roundedShadowRgba_ok (w * 2) (h * 2) 16 (by omega) (by omega)
    have e5 := imageNew_ok PMode.RGBA ((w * 2 + (16 : Nat) * 2).toNat : Nat)
      ((h * 2 + (16 : Nat) * 2).toNat : Nat) (by omega) (by omega)
    simp only [renderThumbBetter, e1, ebind_ok, drawOnImage, PImage.convert, e2, e3,
      applyRounded, PImage.putalpha, e4, e5, alphaCompositeInPlace_ok, PImage.resize,
      Int.toNat_natCast]
    by_cases hpos : 0 < w ∧ 0 < h
    · rw [if_pos (by omega), if_pos hpos]
    · rw [if_neg (by omega), if_neg hpos]
  · have e1 := imageNew_err PMode.RGB (w * 2) (h * 2) (by omega)
    simp only [renderThumbBetter, e1, ebind_err]
    rw [if_neg (by omega)]

/-- Characterization of the gui render: it succeeds exactly on nonnegative
dimensions (zero included) and then delivers an RGB image of exactly the
requested size. -/
theorem renderThumbGui_eq (text : String) (w h : Int) :
    renderThumbGui text (w, h) =
      if 0 ≤ w ∧ 0 ≤ h then Except.ok ⟨PMode.RGB, w.toNat, h.toNat⟩
      else Except.error PErr.valueError := by
  by_cases hw : 0 ≤ w ∧ 0 ≤ h
  · obtain ⟨hw1, hh1⟩ := hw
    have e1 := imageNew_ok PMode.RGB w h hw1 hh1
    have e2 := imageNew_ok PMode.RGBA w h hw1 hh1
    have e3 := alphaComposite_ok w.toNat h.toNat
    simp only [renderThumbGui, e1, ebind_ok, drawOnImage, PImage.convert, e2, e3, epure]
    rw [if_pos ⟨hw1, hh1⟩]
  · have e1 := imageNew_err PMode.RGB w h (by omega)
    simp only [renderThumbGui, e1, ebind_err]
    rw [if_neg hw]

/-- A cache state is well formed for a render function when every stored
entry is exactly what the render delivers for its key.  Entries only ever
enter the cache from a successful render, so every reachable cache state is
well formed (emptyCache_wf and getOrCreate_preserves_wf below). -/
def CacheWF (render : String → Int × Int → Except PErr PImage) (cache : Cache) : Prop :=
  ∀ k img, cache k = some img → render k.1 k.2.2 = Except.ok img

theorem emptyCache_wf (render : String → Int × Int → Except PErr PImage) :
    CacheWF render emptyCache := fun _ _ h => Option.noConfusion h

/-- Under a well formed cache the returned bitmap is always the rendered
one, on a hit and on a miss alike. -/
theorem getOrCreate_fst (render : String → Int × Int → Except PErr PImage)
    (cache : Cache) (t : String) (c : Nat × Nat × Nat) (s : Int × Int)
    (hwf : CacheWF render cache) :
    (getOrCreate render cache t c s).1 = render t s := by
  unfold getOrCreate
  cases hc : cache (t, c, s) with
  | some i =>
    have h2 : render t s = Except.ok i := hwf (t, c, s) i hc
    simp only [hc, h2]
  | none =>
    cases hr : render t s with
    | ok img => simp only [hc, hr]
    | error e => simp only [hc, hr]

/-- A get or create step keeps the cache well formed. -/
theorem getOrCreate_preserves_wf (render : String → Int × Int → Except PErr PImage)
    (cache : Cache) (t : String) (c : Nat × Nat × Nat) (s : Int × Int)
    (hwf : CacheWF render cache) :
    CacheWF render (getOrCreate render cache t c s).2 := by
  unfold getOrCreate
  cases hc : cache (t, c, s) with
  | some i => simpa [hc] using hwf
  | none =>
    cases hr : render t s with
    | error e => simpa [hc, hr] using hwf
    | ok img =>
      simp only [hc, hr]
      intro k im hk
      simp only [] at hk
      by_cases hkey : k = (t, c, s)
      · rw [if_pos hkey] at hk
        cases hk
        rw [hkey]
        exact hr
      · rw [if_neg hkey] at hk
        exact hwf k im hk

/-- Running get or create twice on the same key is the same as running it
once, in result and in resulting cache state. -/
theorem getOrCreate_idem (render : String → Int × Int → Except PErr PImage)
    (cache : Cache) (t : String) (c : Nat × Nat × Nat) (s : Int × Int) :
    getOrCreate render (getOrCreate render cache t c s).2 t c s =
      getOrCreate render cache t c s := by
  unfold getOrCreate
  cases hc : cache (t, c, s) with
  | some i => simp only [hc]
  | none =>
    cases hr : render t s with
    | error e => simp only [hc, hr]
    | ok img => simp [hc, hr]

/-- C2: calling make_thumb a second time with the same key returns exactly
the bitmap stored by the first call and leaves the cache unchanged: in both
source files a second call after a first call equals the first call alone,
in result and in resulting cache state. -/
theorem c2_cache_idempotent :
    (∀ (cache : Cache) (t : String) (c : Nat × Nat × Nat) (s : Int × Int),
        makeThumbBetter (makeThumbBetter cache t c s).2 t c s = makeThumbBetter cache t c s)
    ∧ (∀ (cache : Cache) (t : String) (c : Nat × Nat × Nat) (s : Int × Int),
        makeThumbGui (makeThumbGui cache t c s).2 t c s = makeThumbGui cache t c s) :=
  ⟨fun cache t c s => getOrCreate_idem renderThumbBetter cache t c s,
   fun cache t c s => getOrCreate_idem renderThumbGui cache t c s⟩

/-- Counterexample to C1 as stated: the make_thumb of gui_concept.py at the
anchor input returns an RGB bitmap, whose channel count is three, not the
four channels (RGBA) the claim asserts for every thumbnail. -/
theorem c1_gui_channels_counterexample :
    (makeThumbGui emptyCache ("X") (10, 20, 30) (480, 270)).1 =
      Except.ok ⟨PMode.RGB, 480, 270⟩
    ∧ (⟨PMode.RGB, 480, 270⟩ : PImage).channels ≠ 4 :=
  ⟨rfl, by decide⟩

/-- C1 as amended: under any well formed cache state, a successful
make_thumb call returns a bitmap of exactly the requested width and height
in both source files; the better_gui_concept version delivers RGBA (four
channels), the gui_concept version delivers RGB (three channels). -/
theorem c1_thumb_dimensions_and_mode :
    (∀ (cache : Cache) (t : String) (c : Nat × Nat × Nat) (w h : Int)
        (img : PImage) (c2 : Cache),
        CacheWF renderThumbBetter cache →
        makeThumbBetter cache t c (w, h) = (Except.ok img, c2) →
        (img.width : Int) = w ∧ (img.height : Int) = h
          ∧ img.mode = PMode.RGBA ∧ img.channels = 4)
    ∧ (∀ (cache : Cache) (t : String) (c : Nat × Nat × Nat) (w h : Int)
        (img : PImage) (c2 : Cache),
        CacheWF renderThumbGui cache →
        makeThumbGui cache t c (w, h) = (Except.ok img, c2) →
        (img.width : Int) = w ∧ (img.height : Int) = h
          ∧ img.mode = PMode.RGB ∧ img.channels = 3) := by
  constructor
  · intro cache t c w h img c2 hwf heq
    have h1 : (makeThumbBetter cache t c (w, h)).1 = Except.ok img := by rw [heq]
    rw [makeThumbBetter, getOrCreate_fst renderThumbBetter cache t c (w, h) hwf,
      renderThumbBetter_eq] at h1
    by_cases hpos : 0 < w ∧ 0 < h
    · rw [if_pos hpos] at h1
      cases h1
      refine ⟨?_, ?_, rfl, rfl⟩
      · simp only [PImage.width]; omega
      · simp only [PImage.height]; omega
    · rw [if_neg hpos] at h1
      exact Except.noConfusion h1
  · intro cache t c w h img c2 hwf heq
    have h1 : (makeThumbGui cache t c (w, h)).1 = Except.ok img := by rw [heq]
    rw [makeThumbGui, getOrCreate_fst renderThumbGui cache t c (w, h) hwf,
      renderThumbGui_eq] at h1
    by_cases hpos : 0 ≤ w ∧ 0 ≤ h
    · rw [if_pos hpos] at h1
      cases h1
      refine ⟨?_, ?_, rfl, rfl⟩
      · simp only [PImage.width]; omega
      · simp only [PImage.height]; omega
    · rw [if_neg hpos] at h1
      exact Except.noConfusion h1

/-- Witness for c1_thumb_dimensions_and_mode at the spec anchor 480 by 270
with an empty cache, in both source files. -/
theorem c1_witness :
    (((⟨PMode.RGBA, 480, 270⟩ : PImage).width : Int) = 480
      ∧ ((⟨PMode.RGBA, 480, 270⟩ : PImage).height : Int) = 270
      ∧ (⟨PMode.RGBA, 480, 270⟩ : PImage).mode = PMode.RGBA
      ∧ (⟨PMode.RGBA, 480, 270⟩ : PImage).channels = 4)
    ∧ (((⟨PMode.RGB, 480, 270⟩ : PImage).width : Int) = 480
      ∧ ((⟨PMode.RGB, 480, 270⟩ : PImage).height : Int) = 270
      ∧ (⟨PMode.RGB, 480, 270⟩ : PImage).mode = PMode.RGB
      ∧ (⟨PMode.RGB, 480, 270⟩ : PImage).channels = 3) :=
  ⟨c1_thumb_dimensions_and_mode.1 emptyCache ("X") (10, 20, 30) 480 270
      ⟨PMode.RGBA, 480, 270⟩ (makeThumbBetter emptyCache ("X") (10, 20, 30) (480, 270)).2
      (emptyCache_wf renderThumbBetter) rfl,
   c1_thumb_dimensions_and_mode.2 emptyCache ("X") (10, 20, 30) 480 270
      ⟨PMode.RGB, 480, 270⟩ (makeThumbGui emptyCache ("X") (10, 20, 30) (480, 270)).2
      (emptyCache_wf renderThumbGui) rfl⟩

/-- Counterexample to C9 as stated: at the malformed zero height size the
make_thumb of gui_concept.py does not reject the call at all, it returns a
degenerate bitmap of exactly the requested size. -/
theorem c9_zero_size_returns_bitmap :
    (makeThumbGui emptyCache ("X") (220, 20, 60) (480, 0)).1 =
      Except.ok ⟨PMode.RGB, 480, 0⟩ := rfl

/-- C9 as amended: neither make_thumb performs an explicit argument check.
In better_gui_concept.py a zero or negative dimension makes the call fail
with the ValueError of the imaging library (negative sizes in the image
constructor, zero sizes in the final resize); in gui_concept.py only
negative dimensions fail, again with the library ValueError, while zero
dimensions produce a degenerate bitmap; positive dimensions always produce
a bitmap of the requested size in both. -/
theorem c9_no_invalid_argument_check :
    (∀ (cache : Cache) (t : String) (c : Nat × Nat × Nat) (w h : Int),
        CacheWF renderThumbBetter cache → (w ≤ 0 ∨ h ≤ 0) →
        (makeThumbBetter cache t c (w, h)).1 = Except.error PErr.valueError)
    ∧ (∀ (cache : Cache) (t : String) (c : Nat × Nat × Nat) (w h : Int),
        CacheWF renderThumbBetter cache → 0 < w → 0 < h →
        (makeThumbBetter cache t c (w, h)).1 = Except.ok ⟨PMode.RGBA, w.toNat, h.toNat⟩)
    ∧ (∀ (cache : Cache) (t : String) (c : Nat × Nat × Nat) (w h : Int),
        CacheWF renderThumbGui cache → (w < 0 ∨ h < 0) →
        (makeThumbGui cache t c (w, h)).1 = Except.error PErr.valueError)
    ∧ (∀ (cache : Cache) (t : String) (c : Nat × Nat × Nat) (w h : Int),
        CacheWF renderThumbGui cache → 0 ≤ w → 0 ≤ h →
        (makeThumbGui cache t c (w, h)).1 = Except.ok ⟨PMode.RGB, w.toNat, h.toNat⟩) := by
  refine ⟨?_, ?_, ?_, ?_⟩
  · intro cache t c w h hwf hneg
    rw [makeThumbBetter, getOrCreate_fst renderThumbBetter cache t c (w, h) hwf,
      renderThumbBetter_eq, if_neg (by omega)]
  · intro cache t c w h hwf hw hh
    rw [makeThumbBetter, getOrCreate_fst renderThumbBetter cache t c (w, h) hwf,
      renderThumbBetter_eq, if_pos ⟨hw, hh⟩]
  · intro cache t c w h hwf hneg
    rw [makeThumbGui, getOrCreate_fst renderThumbGui cache t c (w, h) hwf,
      renderThumbGui_eq, if_neg (by omega)]
  · intro cache t c w h hwf hw hh
    rw [makeThumbGui, getOrCreate_fst renderThumbGui cache t c (w, h) hwf,
      renderThumbGui_eq, if_pos ⟨hw, hh⟩]

/-- Witness for c9_no_invalid_argument_check: the better variant fails at a
zero height and succeeds at the anchor size, the gui variant fails at a
negative height and succeeds at a small size, all from the empty cache. -/
theorem c9_witness :
    (makeThumbBetter emptyCache ("X") (220, 20, 60) (480, 0)).1 =
        Except.error PErr.valueError
    ∧ (makeThumbBetter emptyCache ("X") (220, 20, 60) (480, 270)).1 =
        Except.ok ⟨PMode.RGBA, (480 : Int).toNat, (270 : Int).toNat⟩
    ∧ (makeThumbGui emptyCache ("X") (220, 20, 60) (480, -1)).1 =
        Except.error PErr.valueError
    ∧ (makeThumbGui emptyCache ("X") (220, 20, 60) (320, 180)).1 =
        Except.ok ⟨PMode.RGB, (320 : Int).toNat, (180 : Int).toNat⟩ :=
  ⟨c9_no_invalid_argument_check.1 emptyCache ("X") (220, 20, 60) 480 0
      (emptyCache_wf renderThumbBetter) (Or.inr (by omega)),
   c9_no_invalid_argument_check.2.1 emptyCache ("X") (220, 20, 60) 480 270
      (emptyCache_wf renderThumbBetter) (by omega) (by omega),
   c9_no_invalid_argument_check.2.2.1 emptyCache ("X") (220, 20, 60) 480 (-1)
      (emptyCache_wf renderThumbGui) (Or.inr (by omega)),
   c9_no_invalid_argument_check.2.2.2 emptyCache ("X") (220, 20, 60) 320 180
      (emptyCache_wf renderThumbGui) (by omega) (by omega)⟩

/-- One channel of the brighter hover variant of VideoCard in
better_gui_concept.py line 299: min(255, int(c * 1.05)).  The literal 1.05
is the double 4728779608739021 / 2 ^ 52; the product of the exactly
representable channel with it is correctly rounded (toDouble) and then
truncated by int. -/
def brighterChan (c : Nat) : Nat :=
  min 255 (floorD (toDouble (c * 4728779608739021) 4503599627370496))

/-- One channel of the darker hover variant of VideoCard in
better_gui_concept.py line 300: max(0, int(c * 0.92)).  The literal 0.92 is
the double 8286623314361713 / 2 ^ 53. -/
def darkerChan (c : Nat) : Nat :=
  max 0 (floorD (toDouble (c * 8286623314361713) 9007199254740992))

/-- The brighter variant color tuple of better_gui_concept.py line 299. -/
def brighterColor (col : Nat × Nat × Nat) : Nat × Nat × Nat :=
  (brighterChan col.1, brighterChan col.2.1, brighterChan col.2.2)

/-- The darker variant color tuple of better_gui_concept.py line 300. -/
def darkerColor (col : Nat × Nat × Nat) : Nat × Nat × Nat :=
  (darkerChan col.1, darkerChan col.2.1, darkerChan col.2.2)

set_option maxRecDepth 4096 in
/-- C8: for every channel in [0, 255], the brighter variant channel equals
the exact multiply by 21 / 20, floor, clamp at 255, the darker variant
channel equals the exact multiply by 23 / 25 and floor (its lower clamp at
zero never bites), and both derived channels stay within [0, 255]; in
particular brightening the near white (250, 250, 250) clamps every channel
to exactly 255 instead of wrapping or overflowing. -/
theorem c8_brighten_clamped :
    (∀ c : Nat, c < 256 →
        brighterChan c = min 255 (21 * c / 20)
        ∧ darkerChan c = 23 * c / 25
        ∧ brighterChan c ≤ 255 ∧ darkerChan c ≤ 255)
    ∧ brighterColor (250, 250, 250) = (255, 255, 255) := by
  constructor
  · decide
  · decide

/-- Witness for c8_brighten_clamped at the channel value 250. -/
theorem c8_witness :
    (brighterChan 250 = min 255 (21 * 250 / 20)
      ∧ darkerChan 250 = 23 * 250 / 25
      ∧ brighterChan 250 ≤ 255 ∧ darkerChan 250 ≤ 255)
    ∧ brighterColor (250, 250, 250) = (255, 255, 255) :=
  ⟨c8_brighten_clamped.1 250 (by omega), c8_brighten_clamped.2⟩

end VideoSystem
